import Mathlib

/-!
Verification of the Gamepad-Reaction-Test trial engine.

The development shallowly embeds the three Python variants:
* `RT`  — `reaction-trainer.py` (lenient wrong-press policy, false-start counter),
* `V1`  — `xbox-gamepad-trainer.py` (strict policy, uniform random targets),
* `V2`  — `xbox-gamepad-trainer-v2.py` (strict policy, shuffle-bag scheduler,
  analog trigger decoding with hysteresis).

Timestamps and axis values are modelled as rationals (`ℚ`); the random
sources (`random.uniform`, `random.choice`, `random.shuffle`) are passed in
as explicit oracle arguments, so every step function is deterministic in its
inputs.  A `none` result of a step function models an uncaught Python
exception (only the empty-bag `list.pop` can produce one).
-/

/-- Shared phase type of the two xbox-trainer variants: the Python code uses
the strings `"delay"`, `"prompt"`, `"summary"`. -/
inductive GPhase
  | delay
  | prompt
  | summary
deriving DecidableEq

/-- Attempt record, identical `@dataclass Attempt` in both xbox variants:
`target`, `pressed` (optional label), `reaction_s` (optional seconds),
`correct`. -/
structure Attempt where
  target : String
  pressed : Option String
  reaction_s : Option ℚ
  correct : Bool
deriving DecidableEq

/-- Face-button index map `DEFAULT_XBOX_FACE` shared by all three
variants: indices 0, 1, 2, 3 map to the labels A, B, X, Y. -/
def btn_index_to_face : ℕ → Option String
  | 0 => some "A"
  | 1 => some "B"
  | 2 => some "X"
  | 3 => some "Y"
  | _ => none

/-! ## ShuffleBag (`xbox-gamepad-trainer-v2.py`, lines 157-178)

`random.shuffle` is modelled by an oracle `sh : List String → List String`
supplied at each call that may refill; the intended reading is that `sh l`
is the permutation of `l` the RNG produced. -/

/-- State of `class ShuffleBag`: `_items` (the target set kept for refills)
and `_bag` (the consumable shuffled copy). -/
structure ShuffleBag where
  items : List String
  bag : List String
deriving DecidableEq

/-- Constructor `__init__`: stores `list(items)` and immediately `_refill`s,
i.e. sets the bag to a shuffled copy of the items.  Total: the Python
constructor performs no validation and cannot raise. -/
def ShuffleBag.init (sh : List String → List String) (items : List String) :
    ShuffleBag :=
  { items := items, bag := sh items }

/-- Method `next`: refill (shuffle a fresh copy of the items) when the bag is
empty, then `self._bag.pop()` — Python `pop()` removes the LAST element and
raises `IndexError` on an empty list, modelled by a `none` first component. -/
def ShuffleBag.next (sh : List String → List String) (s : ShuffleBag) :
    Option String × ShuffleBag :=
  let bag := if s.bag.isEmpty then sh s.items else s.bag
  match bag.getLast? with
  | none => (none, { s with bag := bag })
  | some x => (some x, { s with bag := bag.dropLast })

/-- Method `remaining`: size of the current bag. -/
def ShuffleBag.remaining (s : ShuffleBag) : ℕ := s.bag.length

/-- A sequence of consecutive `next` calls, one shuffle oracle per call
(each potential refill is a fresh RNG draw). -/
def ShuffleBag.drawN :
    List (List String → List String) → ShuffleBag →
      List (Option String) × ShuffleBag
  | [], s => ([], s)
  | sh :: shs, s =>
    let p := ShuffleBag.next sh s
    let q := ShuffleBag.drawN shs p.2
    (p.1 :: q.1, q.2)

/-! ## Statistics engine (`SessionStats.summary_text`)

The function `summary_text` is line-for-line identical in
`xbox-gamepad-trainer.py` (lines 50-105) and `xbox-gamepad-trainer-v2.py`
(lines 66-120) except for the target list used by the per-button
breakdown (`["A","B","X","Y"]` vs `ALL_TARGETS`), so it is embedded once,
parametrized by that list.  Numeric payloads replace the f-string rendering:
the report is the structured content of the printed lines.  Calls of
`statistics.mean` / `statistics.median` / `min` / `max` (which raise on
empty input) are modelled as `Option`-valued; a `none` report models an
uncaught exception. -/

namespace Stats

/-- The `statistics.mean` call: arithmetic mean; raises (`none`) on `[]`. -/
def meanO (l : List ℚ) : Option ℚ :=
  if l = [] then none else some (l.sum / l.length)

/-- The `statistics.median` call: sort, middle element for odd length,
average of the two middle elements for even length; raises (`none`) on
`[]`. -/
def medianO (l : List ℚ) : Option ℚ :=
  let s := l.mergeSort (fun a b => decide (a ≤ b))
  let n := s.length
  if n = 0 then none
  else if n % 2 = 1 then some (s.getD (n / 2) 0)
  else some ((s.getD (n / 2 - 1) 0 + s.getD (n / 2) 0) / 2)

/-- Helper `_correct_reactions`: reaction times of correct attempts whose
reaction value is present. -/
def correct_reactions (attempts : List Attempt) : List ℚ :=
  attempts.filterMap fun a => if a.correct then a.reaction_s else none

/-- Reaction times of correct attempts for one target button
(the list comprehension inside the per-button loop, line 98 of v2). -/
def button_rts (attempts : List Attempt) (btn : String) : List ℚ :=
  attempts.filterMap fun a =>
    if a.correct ∧ a.target = btn then a.reaction_s else none

/-- One tally step of the confusion dictionary
`conf[(t,p)] = conf.get((t,p), 0) + 1`, on the insertion-ordered
association list that models the Python dict. -/
def tallyAdd (conf : List ((String × String) × ℕ)) (k : String × String) :
    List ((String × String) × ℕ) :=
  if conf.any (fun e => e.1 = k) then
    conf.map fun e => if e.1 = k then (e.1, e.2 + 1) else e
  else conf ++ [(k, 1)]

/-- The confusion dictionary (v2 lines 107-110): tally `(target, pressed)`
over incorrect attempts with a known pressed label, in first-seen order. -/
def confusionTally (attempts : List Attempt) : List ((String × String) × ℕ) :=
  attempts.foldl
    (fun conf a =>
      match a.pressed with
      | some p => if a.correct then conf else tallyAdd conf (a.target, p)
      | none => conf)
    []

/-- Comparison used by `sorted(conf.items(), key=lambda kv: kv[1],
reverse=True)`: order by count, descending; Python sorting is stable, as is
`List.mergeSort`. -/
def confLe (a b : (String × String) × ℕ) : Bool := decide (b.2 ≤ a.2)

/-- The rendered confusion summary (v2 line 115): sorted by descending
count, truncated to the first 8 entries. -/
def confusionTop (attempts : List Attempt) : List ((String × String) × ℕ) :=
  ((confusionTally attempts).mergeSort confLe).take 8

/-- Structured content of the summary produced by `summary_text`. -/
structure Report where
  total : ℕ
  correct : ℕ
  incorrect : ℕ
  /-- accuracy in percent, `(correct / total * 100.0) if total else 0.0` -/
  acc : ℚ
  /-- mean, median, fastest, slowest over correct reactions; `none` renders
  the "(no correct attempts recorded)" line -/
  reaction : Option (ℚ × ℚ × ℚ × ℚ)
  /-- per-button line for every configured target; `none` renders the
  explicit `n=  0` empty marker -/
  perButton : List (String × Option (ℕ × ℚ × ℚ))
  confusion : List ((String × String) × ℕ)
deriving DecidableEq

/-- One line of the per-button breakdown (v2 lines 97-105): statistics of
the button's correct reactions when nonempty, otherwise the explicit
`n=  0` marker; the internal `statistics` calls can in principle raise. -/
def perButtonEntry (attempts : List Attempt) (btn : String) :
    Option (String × Option (ℕ × ℚ × ℚ)) := do
  let rts := button_rts attempts btn
  if rts = [] then
    pure (btn, none)
  else do
    let m ← meanO rts
    let md ← medianO rts
    pure (btn, some (rts.length, m, md))

/-- The whole `summary_text` computation over the attempts ledger, with a
`none` result modelling an uncaught exception inside it. -/
def summaryReport (targets : List String) (attempts : List Attempt) :
    Option Report := do
  let total := attempts.length
  let correct := (attempts.filter fun a => a.correct).length
  let incorrect := total - correct
  let acc : ℚ := if total = 0 then 0 else (correct : ℚ) / total * 100
  let correct_rts := correct_reactions attempts
  let reaction ←
    if correct_rts = [] then pure none
    else do
      let m ← meanO correct_rts
      let md ← medianO correct_rts
      let mn ← correct_rts.min?
      let mx ← correct_rts.max?
      pure (some (m, md, mn, mx))
  let perButton ← targets.mapM (perButtonEntry attempts)
  pure { total := total, correct := correct, incorrect := incorrect,
         acc := acc, reaction := reaction, perButton := perButton,
         confusion := confusionTop attempts }

/-- Total counterpart of `meanO`, used to state that the guarded calls
never fail. -/
def mean (l : List ℚ) : ℚ := l.sum / l.length

/-- Total counterpart of `medianO`. -/
def median (l : List ℚ) : ℚ :=
  let s := l.mergeSort (fun a b => decide (a ≤ b))
  let n := s.length
  if n % 2 = 1 then s.getD (n / 2) 0
  else (s.getD (n / 2 - 1) 0 + s.getD (n / 2) 0) / 2

/-- Total counterpart of `summaryReport`: what it computes whenever no
internal call raises. -/
def reportPure (targets : List String) (attempts : List Attempt) : Report :=
  let total := attempts.length
  let correct := (attempts.filter fun a => a.correct).length
  let correct_rts := correct_reactions attempts
  { total := total
    correct := correct
    incorrect := total - correct
    acc := if total = 0 then 0 else (correct : ℚ) / total * 100
    reaction :=
      if correct_rts = [] then none
      else some (mean correct_rts, median correct_rts,
        (correct_rts.min?).getD 0, (correct_rts.max?).getD 0)
    perButton := targets.map fun btn =>
      let rts := button_rts attempts btn
      (btn, if rts = [] then none else some (rts.length, mean rts, median rts))
    confusion := confusionTop attempts }

end Stats

/-- Target list of the v1 per-button breakdown (`["A","B","X","Y"]`,
`xbox-gamepad-trainer.py` line 81). -/
def FACE_TARGETS : List String := ["A", "B", "X", "Y"]

/-- `ALL_TARGETS` of `xbox-gamepad-trainer-v2.py` line 25. -/
def ALL_TARGETS : List String := ["A", "B", "X", "Y", "LB", "RB", "LT", "RT"]

/-! ## V2 trial state machine (`xbox-gamepad-trainer-v2.py`, `main`)

The mutable locals of `main` (`phase`, `delay_until`, `target_btn`,
`prompt_shown_t`, `stats`, `bag`, `trigger_armed`) form the state.  The
random delay drawn by `random.uniform(*DELAY_RANGE_S)` and the shuffle
performed by a refill are oracle arguments.  Presentation-only state
(`last_feedback`, `last_feedback_t`, the saved summary text) is omitted:
the frozen report is a function of the attempts ledger. -/

namespace V2

/-- `TRIGGER_THRESHOLD = 0.6` (line 44). -/
def TRIGGER_THRESHOLD : ℚ := 6 / 10

/-- `TRIGGER_RELEASE = 0.2` (line 45). -/
def TRIGGER_RELEASE : ℚ := 2 / 10

/-- Button map `btn_index_to_label` built from `DEFAULT_XBOX_FACE` and
`DEFAULT_XBOX_BUMPERS` (lines 199-201). -/
def btn_index_to_label : ℕ → Option String
  | 0 => some "A"
  | 1 => some "B"
  | 2 => some "X"
  | 3 => some "Y"
  | 4 => some "LB"
  | 5 => some "RB"
  | _ => none

/-- The mutable state of `main`.  `trigger_armed` models the Python dict
built over `TRIGGER_AXES.values()` — an insertion-ordered association list
with keys LT and RT, both initially armed. -/
structure State where
  phase : GPhase
  delay_until : ℚ
  target_btn : String
  prompt_shown_t : Option ℚ
  attempts : List Attempt
  bag : ShuffleBag
  trigger_armed : List (String × Bool)
deriving DecidableEq

/-- Reading `trigger_armed[name]`; the keys `"LT"`/`"RT"` are always
present in reachable states, so the default is never consulted. -/
def armedOf (s : State) (name : String) : Bool :=
  (s.trigger_armed.lookup name).getD true

/-- Writing `trigger_armed[name] = v`. -/
def setArmed (l : List (String × Bool)) (name : String) (v : Bool) :
    List (String × Bool) :=
  l.map fun e => if e.1 = name then (e.1, v) else e

/-- `record_press(label, now)` (lines 226-245).  Note the Python truthiness
test `if prompt_shown_t` treats a `0.0` timestamp like `None`.  On a correct
press the bag is drawn for the next target; a failed draw (empty-items bag)
propagates as `none`. -/
def record_press (sh : List String → List String) (delayDraw : ℚ)
    (label : String) (now : ℚ) (s : State) : Option State :=
  let rt : Option ℚ :=
    match s.prompt_shown_t with
    | some t => if t = 0 then none else some (now - t)
    | none => none
  let correct : Bool := decide (label = s.target_btn)
  let s1 := { s with attempts := s.attempts ++
    [{ target := s.target_btn, pressed := some label, reaction_s := rt,
       correct := correct }] }
  if correct then
    match ShuffleBag.next sh s1.bag with
    | (some nxt, bag1) =>
      some { s1 with
        phase := GPhase.delay
        delay_until := now + delayDraw
        target_btn := nxt
        prompt_shown_t := none
        bag := bag1 }
    | (none, _) => none
  else some s1

/-- Handler of one `JOYBUTTONDOWN` event (lines 261-269): processed only
while `phase == "prompt"`; button 7 (START) stops to the summary; a mapped
label is recorded, an unmapped index does nothing. -/
def handleJoyButtonDown (sh : List String → List String) (delayDraw : ℚ)
    (idx : ℕ) (now : ℚ) (s : State) : Option State :=
  if s.phase = GPhase.prompt then
    if idx = 7 then some { s with phase := GPhase.summary }
    else
      match btn_index_to_label idx with
      | some label => record_press sh delayDraw label now s
      | none => some s
  else some s

/-- One iteration of the trigger-axis polling loop body (lines 272-282)
for the axis `(axis_idx, name)` whose sampled value is `v`: skip axes the
device does not have; fire `record_press` when the value is above the press
threshold while armed (disarming first); re-arm when the value is below the
release threshold. -/
def pollTriggerAxis (sh : List String → List String) (delayDraw : ℚ)
    (numAxes : ℕ) (axis_idx : ℕ) (name : String) (v : ℚ) (now : ℚ)
    (s : State) : Option State :=
  if numAxes ≤ axis_idx then some s
  else
    let s1o :=
      if TRIGGER_THRESHOLD < v ∧ armedOf s name then
        record_press sh delayDraw name now
          { s with trigger_armed := setArmed s.trigger_armed name false }
      else some s
    match s1o with
    | none => none
    | some s1 =>
      some (if v < TRIGGER_RELEASE then
        { s1 with trigger_armed := setArmed s1.trigger_armed name true }
      else s1)

/-- The whole trigger polling pass (lines 271-282): guarded once by
the phase being `prompt`, then both axes of `TRIGGER_AXES` — axis 4 is LT,
axis 5 is RT — are polled in insertion order, even if the first poll
advanced the phase. -/
def triggerPass (shLT shRT : List String → List String) (dLT dRT : ℚ)
    (numAxes : ℕ) (vLT vRT : ℚ) (now : ℚ) (s : State) : Option State :=
  if s.phase = GPhase.prompt then do
    let s1 ← pollTriggerAxis shLT dLT numAxes 4 "LT" vLT now s
    pollTriggerAxis shRT dRT numAxes 5 "RT" vRT now s1
  else some s

/-- The time-triggered transition (lines 284-288): once the delay deadline
has passed, the prompt becomes live, its onset timestamp is recorded and
every trigger is re-armed (`for k in trigger_armed: trigger_armed[k] =
True`). -/
def delayToPrompt (now : ℚ) (s : State) : State :=
  if s.phase = GPhase.delay ∧ s.delay_until ≤ now then
    { s with
      phase := GPhase.prompt
      prompt_shown_t := some now
      trigger_armed := s.trigger_armed.map fun e => (e.1, true) }
  else s

end V2

/-! ## Trigger hysteresis automaton

The per-label content of one poll iteration (v2 lines 277-282), abstracted
to the armed flag and a fire bit so that runs over sample sequences can be
stated; `V2.pollTriggerAxis` performs exactly one such step on the
`trigger_armed` entry of the polled label. -/

namespace Trigger

/-- Fire condition `v > TRIGGER_THRESHOLD and trigger_armed[name]`. -/
def fires (v : ℚ) (armed : Bool) : Bool :=
  decide (V2.TRIGGER_THRESHOLD < v) && armed

/-- Armed flag after one poll of value `v`: firing disarms, a value below
the release threshold re-arms. -/
def nextArmed (v : ℚ) (armed : Bool) : Bool :=
  let a1 := if fires v armed then false else armed
  if v < V2.TRIGGER_RELEASE then true else a1

/-- Number of press events fired over a sequence of sampled values,
starting from a given armed flag, with no prompt-entry reset in between. -/
def fireCount : List ℚ → Bool → ℕ
  | [], _ => 0
  | v :: vs, armed =>
    (if fires v armed then 1 else 0) + fireCount vs (nextArmed v armed)

end Trigger

/-! ## V1 trial state machine (`xbox-gamepad-trainer.py`, `main`)

Strict wrong-press policy like V2 but only face buttons, uniform-random
target selection (`random.choice`, an oracle argument `choiceDraw`), no
triggers, no false-start counter. -/

namespace V1

/-- The mutable locals of `main` that the claims concern. -/
structure State where
  phase : GPhase
  delay_until : ℚ
  target_btn : String
  prompt_shown_t : Option ℚ
  attempts : List Attempt
deriving DecidableEq

/-- Handler of one `JOYBUTTONDOWN` event (lines 178-228): button 7 stops to
the summary from any non-summary phase; otherwise presses matter only while
`phase == "prompt"`, where a mapped face button records an attempt (using
`is not None` for the timestamp, so no truthiness pitfall) and only a
correct press advances to a fresh delay with a fresh uniform-random
target. -/
def handleJoyButtonDown (delayDraw : ℚ) (choiceDraw : String) (idx : ℕ)
    (now : ℚ) (s : State) : State :=
  if idx = 7 ∧ s.phase ≠ GPhase.summary then { s with phase := GPhase.summary }
  else if s.phase = GPhase.prompt then
    match btn_index_to_face idx with
    | none => s
    | some pressed_face =>
      let rt : Option ℚ := s.prompt_shown_t.map fun t => now - t
      let correct : Bool := decide (pressed_face = s.target_btn)
      let s1 := { s with attempts := s.attempts ++
        [{ target := s.target_btn, pressed := some pressed_face,
           reaction_s := rt, correct := correct }] }
      if correct then
        { s1 with
          phase := GPhase.delay
          delay_until := now + delayDraw
          target_btn := choiceDraw
          prompt_shown_t := none }
      else s1
  else s

end V1

/-! ## RT trial state machine (`reaction-trainer.py`)

Lenient wrong-press policy, a false-start counter with delay reset, a
single-label configured target set. -/

/-- `class Phase` of `reaction-trainer.py` (lines 148-151): the strings
`"ready"`, `"go"`, `"summary"`. -/
inductive RPhase
  | ready
  | go
  | summary
deriving DecidableEq

namespace RT

/-- `TARGET_BUTTONS = ["A"]` (line 19). -/
def TARGET_BUTTONS : List String := ["A"]

/-- `START_BUTTON_INDEX = 7` (line 36). -/
def START_BUTTON_INDEX : ℕ := 7

/-- `@dataclass Trial` (lines 43-46). -/
structure Trial where
  target : String
  reaction_s : ℚ
deriving DecidableEq

/-- `@dataclass Session` (lines 49-58): the trials ledger and the
false-start counter. -/
structure Session where
  trials : List Trial
  false_starts : ℕ
deriving DecidableEq

/-- The state-machine fields of `@dataclass AppState` (lines 154-175);
feedback strings are presentation-only and omitted. -/
structure AppState where
  phase : RPhase
  target : String
  delay_until : ℚ
  go_shown_t : Option ℚ
deriving DecidableEq

/-- `AppState.schedule_ready` (lines 168-171): back to the ready phase, no
live prompt, a fresh uniform-random delay (oracle argument). -/
def schedule_ready (now delayDraw : ℚ) (st : AppState) : AppState :=
  { st with
    phase := RPhase.ready
    go_shown_t := none
    delay_until := now + delayDraw }

/-- Handler of one `JOYBUTTONDOWN` event (lines 233-275): START stops to
the summary; unmapped indices only produce feedback; during `READY` any
face press is a false start (counter increment plus timer reset, no
trial); during `GO` a wrong face press is ignored and a correct one records
a trial timed from `go_shown_t` and schedules the next trial (with the
defensive no-timestamp branch recording nothing). -/
def handleJoyButtonDown (delayDraw : ℚ) (choiceDraw : String) (idx : ℕ)
    (now : ℚ) (sess : Session) (st : AppState) : Session × AppState :=
  if idx = START_BUTTON_INDEX ∧ st.phase ≠ RPhase.summary then
    (sess, { st with phase := RPhase.summary })
  else
    match btn_index_to_face idx with
    | none => (sess, st)
    | some pressed_face =>
      if st.phase = RPhase.ready then
        ({ sess with false_starts := sess.false_starts + 1 },
         schedule_ready now delayDraw st)
      else if st.phase = RPhase.go then
        if pressed_face ≠ st.target then (sess, st)
        else
          match st.go_shown_t with
          | none =>
            (sess, { schedule_ready now delayDraw st with target := choiceDraw })
          | some t =>
            ({ sess with trials := sess.trials ++
               [{ target := st.target, reaction_s := now - t }] },
             { schedule_ready now delayDraw st with target := choiceDraw })
      else (sess, st)

/-- The time-triggered `READY → GO` transition (lines 278-279 with
`AppState.show_go`, lines 173-175). -/
def readyToGo (now : ℚ) (st : AppState) : AppState :=
  if st.phase = RPhase.ready ∧ st.delay_until ≤ now then
    { st with phase := RPhase.go, go_shown_t := some now }
  else st

/-- `Session.per_button_times` (lines 63-68): reaction times per configured
button, in trial order. -/
def per_button_times (sess : Session) : List (String × List ℚ) :=
  TARGET_BUTTONS.map fun b =>
    (b, (sess.trials.filter fun t => t.target = b).map fun t => t.reaction_s)

/-- The per-button section of `Session.summary_lines` (lines 91-104): it is
emitted only when at least one trial exists AND more than one target button
is configured; inside it, a button with no trials gets the explicit
`n=  0` marker (`none`). -/
def breakdownEntries (sess : Session) : List (String × Option (ℕ × ℚ × ℚ)) :=
  if sess.trials.length ≠ 0 ∧ 1 < TARGET_BUTTONS.length then
    TARGET_BUTTONS.map fun b =>
      let xs := ((per_button_times sess).lookup b).getD []
      (b, if xs = [] then none
          else some (xs.length, Stats.mean xs, Stats.median xs))
  else []

end RT

/-! ## Concrete scenario states

Reachable states of the V2 engine used to evaluate the step functions at
concrete inputs.  All timestamps are positive, as `time.perf_counter`
readings are. -/

/-- A live-prompt state for target `LT` (prompt shown at time 5), both
triggers armed, the bag holding two remaining draws. -/
def c4s0 : V2.State :=
  { phase := GPhase.prompt
    delay_until := 0
    target_btn := "LT"
    prompt_shown_t := some 5
    attempts := []
    bag := { items := ALL_TARGETS, bag := ["A", "B"] }
    trigger_armed := [("LT", true), ("RT", true)] }

/-- A waiting state (deadline 5) in which `LT` is still disarmed from a
press in the previous trial and has not been released since. -/
def c5s0 : V2.State :=
  { phase := GPhase.delay
    delay_until := 5
    target_btn := "A"
    prompt_shown_t := none
    attempts := []
    bag := { items := ALL_TARGETS, bag := ["B"] }
    trigger_armed := [("LT", false), ("RT", true)] }

/-- A live-prompt state for target `LT` (prompt shown at time 5), both
triggers armed, one draw left in the bag. -/
def c10s0 : V2.State :=
  { phase := GPhase.prompt
    delay_until := 0
    target_btn := "LT"
    prompt_shown_t := some 5
    attempts := []
    bag := { items := ALL_TARGETS, bag := ["A"] }
    trigger_armed := [("LT", true), ("RT", true)] }

/-- `c10s0` after the `LT` poll with value `9/10` at time 6: the correct
trigger press resolved the trial and the phase is already `delay`. -/
def c10s1 : V2.State :=
  { phase := GPhase.delay
    delay_until := 7
    target_btn := "A"
    prompt_shown_t := none
    attempts := [{ target := "LT", pressed := some "LT",
                   reaction_s := some 1, correct := true }]
    bag := { items := ALL_TARGETS, bag := [] }
    trigger_armed := [("LT", false), ("RT", true)] }

/-- `c10s1` after the `RT` poll of the same pass: a second attempt lands
although the phase is `delay`. -/
def c10s2 : V2.State :=
  { c10s1 with
    attempts := c10s1.attempts ++
      [{ target := "A", pressed := some "RT", reaction_s := none,
         correct := false }]
    trigger_armed := [("LT", false), ("RT", false)] }

namespace Stats

/-- First-match count accessor on the association list modelling the
confusion dict: the count stored for key `k`, `0` when absent. -/
def lookupCount (conf : List ((String × String) × ℕ)) (k : String × String) :
    ℕ :=
  match conf with
  | [] => 0
  | e :: t => if e.1 = k then e.2 else lookupCount t k

/-- Spec-side pair count for the confusion summary, following the spec's
words: the number of incorrect attempts whose pressed label is known and
whose `(target, pressed)` pair equals `k`. -/
def specPairCount (k : String × String) : List Attempt → ℕ
  | [] => 0
  | a :: t =>
    (if a.correct = false ∧ a.target = k.1 ∧ a.pressed = some k.2 then 1 else 0)
      + specPairCount k t

end Stats

/-- A terminal summary-phase state of the V2 engine. -/
def cSummary : V2.State :=
  { phase := GPhase.summary
    delay_until := 0
    target_btn := "A"
    prompt_shown_t := none
    attempts := []
    bag := { items := ALL_TARGETS, bag := ["B"] }
    trigger_armed := [("LT", true), ("RT", true)] }

namespace Stats

theorem meanO_eq (l : List ℚ) (h : l ≠ []) : meanO l = some (mean l) := by
  simp [meanO, mean, h]

theorem medianO_eq (l : List ℚ) (h : l ≠ []) : medianO l = some (median l) := by
  have hn : (l.mergeSort (fun a b => decide (a ≤ b))).length ≠ 0 := by
    rw [List.length_mergeSort]
    exact fun he => h (List.length_eq_zero.mp he)
  simp only [medianO, median]
  split
  · exact absurd (by assumption) hn
  · split <;> rfl

theorem min?_isSome (l : List ℚ) (h : l ≠ []) : l.min?.isSome := by
  cases l with
  | nil => exact absurd rfl h
  | cons a t => simp [List.min?]

theorem max?_isSome (l : List ℚ) (h : l ≠ []) : l.max?.isSome := by
  cases l with
  | nil => exact absurd rfl h
  | cons a t => simp [List.max?]

theorem perButtonEntry_eq (attempts : List Attempt) (btn : String) :
    perButtonEntry attempts btn =
      some (btn,
        if button_rts attempts btn = [] then none
        else some ((button_rts attempts btn).length,
          mean (button_rts attempts btn), median (button_rts attempts btn))) := by
  by_cases h : button_rts attempts btn = []
  · simp [perButtonEntry, h]
  · simp [perButtonEntry, h, meanO_eq _ h, medianO_eq _ h]

theorem mapM_loop_perButtonEntry (attempts : List Attempt) :
    ∀ (targets : List String) (acc : List (String × Option (ℕ × ℚ × ℚ))),
      List.mapM.loop (perButtonEntry attempts) targets acc =
        some (acc.reverse ++ targets.map fun btn =>
          (btn,
            if button_rts attempts btn = [] then none
            else some ((button_rts attempts btn).length,
              mean (button_rts attempts btn),
              median (button_rts attempts btn)))) := by
  intro targets
  induction targets with
  | nil => intro acc; simp [List.mapM.loop]
  | cons b bs ih =>
    intro acc
    simp only [List.mapM.loop, perButtonEntry_eq, Option.bind_eq_bind,
      Option.some_bind, ih, List.reverse_cons, List.map_cons]
    simp

theorem summaryReport_eq (targets : List String) (attempts : List Attempt) :
    summaryReport targets attempts = some (reportPure targets attempts) := by
  simp only [summaryReport, reportPure]
  by_cases h : correct_reactions attempts = []
  · simp [h, mapM_loop_perButtonEntry attempts]
  · have hmn := min?_isSome (correct_reactions attempts) h
    have hmx := max?_isSome (correct_reactions attempts) h
    obtain ⟨mn, hmn⟩ := Option.isSome_iff_exists.mp hmn
    obtain ⟨mx, hmx⟩ := Option.isSome_iff_exists.mp hmx
    simp [h, meanO_eq _ h, medianO_eq _ h, hmn, hmx, mapM_loop_perButtonEntry attempts]

end Stats

namespace Stats

theorem lookupCount_eq_zero_of_absent (k : String × String) :
    ∀ (conf : List ((String × String) × ℕ)),
      conf.any (fun e => e.1 = k) = false → lookupCount conf k = 0 := by
  intro conf
  induction conf with
  | nil => intro h; rfl
  | cons e t ih =>
    intro h
    simp only [List.any_cons, Bool.or_eq_false_iff, decide_eq_false_iff_not] at h
    simp [lookupCount, h.1, ih h.2]

theorem lookupCount_map_bump_self (k : String × String) :
    ∀ (conf : List ((String × String) × ℕ)),
      conf.any (fun e => e.1 = k) = true →
      lookupCount (conf.map fun e => if e.1 = k then (e.1, e.2 + 1) else e) k =
        lookupCount conf k + 1 := by
  intro conf
  induction conf with
  | nil => intro h; cases h
  | cons e t ih =>
    intro h
    by_cases he : e.1 = k
    · simp [lookupCount, he]
    · simp only [List.any_cons, Bool.or_eq_true, decide_eq_true_eq] at h
      rcases h with h | h
      · exact absurd h he
      · simp [lookupCount, he, ih h]

theorem lookupCount_map_bump_other (k k2 : String × String) (hk : k2 ≠ k) :
    ∀ (conf : List ((String × String) × ℕ)),
      lookupCount (conf.map fun e => if e.1 = k then (e.1, e.2 + 1) else e) k2 =
        lookupCount conf k2 := by
  intro conf
  have hk' : k ≠ k2 := fun h => hk h.symm
  induction conf with
  | nil => rfl
  | cons e t ih =>
    by_cases he : e.1 = k
    · have he2 : e.1 ≠ k2 := by rw [he]; exact hk'
      simp [lookupCount, he, he2, hk', ih]
    · by_cases he2 : e.1 = k2
      · simp [lookupCount, he, he2, hk, ih]
      · simp [lookupCount, he, he2, ih]

theorem lookupCount_append_single (k k2 : String × String) (n : ℕ) :
    ∀ (conf : List ((String × String) × ℕ)),
      lookupCount (conf ++ [(k, n)]) k2 =
        if conf.any (fun e => e.1 = k2) = true then lookupCount conf k2
        else if k = k2 then n else 0 := by
  intro conf
  induction conf with
  | nil => simp [lookupCount]
  | cons e t ih =>
    by_cases he : e.1 = k2
    · simp [lookupCount, he]
    · rw [List.cons_append]
      simp only [lookupCount, if_neg he, ih, List.any_cons, decide_eq_false he,
        Bool.false_or]

theorem lookupCount_tallyAdd (conf : List ((String × String) × ℕ))
    (k k2 : String × String) :
    lookupCount (tallyAdd conf k) k2 =
      if k2 = k then lookupCount conf k2 + 1 else lookupCount conf k2 := by
  by_cases hmem : conf.any (fun e => e.1 = k) = true
  · simp only [tallyAdd, hmem, if_true]
    by_cases hk2 : k2 = k
    · subst hk2
      simp [lookupCount_map_bump_self k2 conf hmem]
    · simp [lookupCount_map_bump_other k k2 hk2 conf, hk2]
  · rw [Bool.not_eq_true] at hmem
    simp only [tallyAdd, hmem, Bool.false_eq_true, if_false]
    rw [lookupCount_append_single]
    by_cases hk2 : k2 = k
    · subst hk2
      simp [hmem, lookupCount_eq_zero_of_absent k2 conf hmem]
    · by_cases hany : conf.any (fun e => e.1 = k2) = true
      · simp [hany, hk2]
      · rw [Bool.not_eq_true] at hany
        simp [hany, hk2, Ne.symm hk2,
          lookupCount_eq_zero_of_absent k2 conf hany]

theorem lookupCount_confusion_foldl (k : String × String) :
    ∀ (attempts : List Attempt) (conf : List ((String × String) × ℕ)),
      lookupCount
        (attempts.foldl
          (fun conf a =>
            match a.pressed with
            | some p => if a.correct then conf else tallyAdd conf (a.target, p)
            | none => conf)
          conf) k =
        lookupCount conf k + specPairCount k attempts := by
  intro attempts
  induction attempts with
  | nil => intro conf; simp [specPairCount]
  | cons a t ih =>
    intro conf
    simp only [List.foldl_cons, specPairCount]
    cases hp : a.pressed with
    | none =>
      rw [ih]
      simp
    | some p =>
      by_cases hc : a.correct
      · rw [ih]
        simp [hc]
      · rw [Bool.not_eq_true] at hc
        rw [ih]
        simp only [hc, Bool.false_eq_true, if_false, lookupCount_tallyAdd]
        by_cases hk : k = (a.target, p)
        · have h1 : a.target = k.1 := by rw [hk]
          have h2 : (some p : Option String) = some k.2 := by rw [hk]
          rw [if_pos hk, if_pos ⟨trivial, h1, h2⟩]
          omega
        · have hcond : ¬(True ∧ a.target = k.1 ∧
              (some p : Option String) = some k.2) := by
            rintro ⟨-, hx1, hx2⟩
            injection hx2 with hx2
            exact hk (Prod.ext hx1.symm hx2.symm)
          rw [if_neg hk, if_neg hcond]
          omega

theorem lookupCount_confusionTally (attempts : List Attempt)
    (k : String × String) :
    lookupCount (confusionTally attempts) k = specPairCount k attempts := by
  rw [confusionTally, lookupCount_confusion_foldl]
  simp [lookupCount]

theorem confLe_trans (a b c : (String × String) × ℕ) :
    confLe a b → confLe b c → confLe a c := by
  simp only [confLe, decide_eq_true_eq]
  omega

theorem confLe_total (a b : (String × String) × ℕ) :
    confLe a b || confLe b a := by
  simp only [confLe, Bool.or_eq_true, decide_eq_true_eq]
  omega

end Stats

unseal Rat.mul Rat.inv in
theorem trigger_release_lt_threshold :
    V2.TRIGGER_RELEASE < V2.TRIGGER_THRESHOLD := by decide

namespace Trigger

theorem fireCount_disarmed (vs : List ℚ)
    (h : ∀ v ∈ vs, ¬ v < V2.TRIGGER_RELEASE) :
    fireCount vs false = 0 := by
  induction vs with
  | nil => rfl
  | cons v t ih =>
    have hv := h v (List.mem_cons_self v t)
    have ih2 := ih fun w hw => h w (List.mem_cons_of_mem v hw)
    simp [fireCount, fires, nextArmed, hv, ih2]

theorem fireCount_sustained_high (vs : List ℚ) (a : Bool)
    (h : ∀ v ∈ vs, V2.TRIGGER_THRESHOLD < v) :
    fireCount vs a ≤ 1 := by
  cases vs with
  | nil => simp [fireCount]
  | cons v t =>
    have hrel : ∀ w ∈ v :: t, ¬ w < V2.TRIGGER_RELEASE := by
      intro w hw hlt
      exact absurd (lt_trans hlt trigger_release_lt_threshold)
        (lt_asymm (h w hw))
    cases a with
    | false =>
      rw [fireCount_disarmed (v :: t) hrel]
      omega
    | true =>
      have hv := h v (List.mem_cons_self v t)
      have hnr := hrel v (List.mem_cons_self v t)
      have hd : fireCount t false = 0 :=
        fireCount_disarmed t fun w hw => hrel w (List.mem_cons_of_mem v hw)
      simp [fireCount, fires, nextArmed, hv, hnr, hd]

end Trigger

theorem btn_index_to_face_high (n : ℕ) : btn_index_to_face (n + 4) = none := rfl

theorem btn_index_to_face_ne_seven (idx : ℕ) (l : String)
    (h : btn_index_to_face idx = some l) : idx ≠ 7 := by
  intro he
  subst he
  rw [btn_index_to_face_high 3] at h
  cases h

namespace V2

theorem lookup_map_true (name : String) :
    ∀ (l : List (String × Bool)),
      (((l.map fun e => (e.1, true)).lookup name).getD true) = true := by
  intro l
  induction l with
  | nil => rfl
  | cons e t ih =>
    by_cases he : name = e.1
    · simp [List.lookup, he]
    · have hne : (name == e.1) = false := by simpa using he
      simp only [List.map_cons, List.lookup_cons, hne]
      exact ih

theorem lookup_setArmed_self (name : String) (v : Bool) :
    ∀ (l : List (String × Bool)),
      (setArmed l name v).lookup name = (l.lookup name).map fun _ => v := by
  intro l
  induction l with
  | nil => rfl
  | cons e t ih =>
    obtain ⟨a, b⟩ := e
    simp only [setArmed] at ih
    by_cases he : a = name
    · simp [setArmed, List.lookup_cons, he]
    · have hb : (name == a) = false := by
        simp only [beq_eq_false_iff_ne, ne_eq]
        exact Ne.symm he
      simp [setArmed, List.lookup_cons, he, hb, ih]

theorem record_press_effect (sh : List String → List String) (d : ℚ)
    (label : String) (now : ℚ) (s : State) (s' : State)
    (h : record_press sh d label now s = some s') :
    s'.attempts.length = s.attempts.length + 1
    ∧ s'.trigger_armed = s.trigger_armed := by
  by_cases hc : label = s.target_btn
  · rcases hnext : ShuffleBag.next sh s.bag with ⟨o, bag1⟩
    cases o with
    | none => simp [record_press, hc, hnext] at h
    | some nxt =>
      simp only [record_press, hc] at h
      rw [if_pos (by simp)] at h
      simp only [hnext, Option.some.injEq] at h
      subst h
      simp
  · simp only [record_press] at h
    rw [if_neg (by simp [hc])] at h
    simp only [Option.some.injEq] at h
    subst h
    simp

end V2

/-! ## ShuffleBag lemmas -/

theorem next_of_ne_nil (sh sh2 : List String → List String) (s : ShuffleBag)
    (h : s.bag ≠ []) : ShuffleBag.next sh s = ShuffleBag.next sh2 s := by
  simp [ShuffleBag.next, h]

theorem drawN_pops (r : List String) :
    ∀ (shs : List (List String → List String)) (s : ShuffleBag),
      s.bag = r.reverse → shs.length = r.length →
      ShuffleBag.drawN shs s = (r.map some, { s with bag := [] }) := by
  induction r with
  | nil =>
    intro shs s hb hl
    simp only [List.length_nil, List.length_eq_zero] at hl
    subst hl
    simp only [List.reverse_nil] at hb
    simp [ShuffleBag.drawN, hb.symm]
  | cons a r' ih =>
    intro shs s hb hl
    cases shs with
    | nil => simp at hl
    | cons sh shs' =>
      simp only [List.length_cons, Nat.succ_inj] at hl
      simp only [List.reverse_cons] at hb
      have hpop : ShuffleBag.next sh s =
          (some a, { s with bag := r'.reverse }) := by
        simp [ShuffleBag.next, hb, List.isEmpty_iff]
      simp only [ShuffleBag.drawN, hpop]
      rw [ih shs' { s with bag := r'.reverse } rfl hl]
      simp

theorem drawN_refill (sh : List String → List String)
    (shs : List (List String → List String)) (s : ShuffleBag)
    (h : s.bag = []) :
    ShuffleBag.drawN (sh :: shs) s =
      ShuffleBag.drawN (sh :: shs) { s with bag := sh s.items } := by
  by_cases hne : sh s.items = []
  · simp [ShuffleBag.drawN, ShuffleBag.next, h, hne]
  · have h1 : ShuffleBag.next sh s = (some ((sh s.items).getLast hne),
        { s with bag := (sh s.items).dropLast }) := by
      simp [ShuffleBag.next, h, List.getLast?_eq_getLast _ hne]
    have h2 : ShuffleBag.next sh { s with bag := sh s.items } =
        (some ((sh s.items).getLast hne),
          { s with bag := (sh s.items).dropLast }) := by
      simp [ShuffleBag.next, hne, List.isEmpty_iff,
        List.getLast?_eq_getLast _ hne]
    simp only [ShuffleBag.drawN, h1, h2]

theorem next_isSome (sh : List String → List String) (s : ShuffleBag)
    (hit : s.items ≠ []) (hsh : ∀ l, (sh l).Perm l) :
    ((ShuffleBag.next sh s).1).isSome := by
  by_cases h : s.bag = []
  · have hne : sh s.items ≠ [] := by
      intro he
      have := (hsh s.items).length_eq
      rw [he] at this
      exact hit (List.length_eq_zero.mp this.symm)
    simp only [ShuffleBag.next, h, List.isEmpty_nil, if_true]
    cases hg : (sh s.items).getLast? with
    | none => exact absurd (List.getLast?_eq_none_iff.mp hg) hne
    | some x => simp
  · have hb : s.bag.isEmpty = false := by simpa [List.isEmpty_iff] using h
    simp only [ShuffleBag.next, hb, if_false]
    cases hg : s.bag.getLast? with
    | none => exact absurd (List.getLast?_eq_none_iff.mp hg) h
    | some x => simp [hg]

/-! ## Claim theorems: scheduler -/

/-- Claim C2: for a shuffle-bag over a target set of size `k ≥ 1`, any `k`
consecutive `next()` draws starting at a refill boundary (empty bag) return
every label exactly once — a permutation of the target set — provided the
shuffle used by the refill permutes its input; and the bag refills only
when it is empty: `next` does not consult the shuffle oracle (hence cannot
refill) while the bag is nonempty. -/
theorem shuffle_bag_window_permutation (s : ShuffleBag)
    (sh0 : List String → List String)
    (shs : List (List String → List String))
    (hb : s.bag = [])
    (hp : (sh0 s.items).Perm s.items)
    (hk : shs.length + 1 = s.items.length) :
    (ShuffleBag.drawN (sh0 :: shs) s).1.Perm (s.items.map some)
    ∧ (∀ (sh sh2 : List String → List String) (t : ShuffleBag), t.bag ≠ [] →
        ShuffleBag.next sh t = ShuffleBag.next sh2 t) := by
  constructor
  · have hlen : (sh0 s.items).length = s.items.length := hp.length_eq
    rw [drawN_refill sh0 shs s hb]
    rw [drawN_pops ((sh0 s.items).reverse) (sh0 :: shs)
      { s with bag := sh0 s.items } (by simp) (by simp [hlen, ← hk])]
    exact ((((sh0 s.items).reverse_perm).trans hp).map some)
  · exact fun sh sh2 t ht => next_of_ne_nil sh sh2 t ht

/-- Closed witness for C2: two draws from a freshly-emptied bag over
`{A, B}` yield both labels. -/
theorem shuffle_bag_window_permutation_witness :
    ((⟨["A", "B"], []⟩ : ShuffleBag).bag = [])
    ∧ (ShuffleBag.drawN [id, id] ⟨["A", "B"], []⟩).1.Perm
        (["A", "B"].map some) :=
  ⟨rfl, (shuffle_bag_window_permutation ⟨["A", "B"], []⟩ id [id] rfl
    (List.Perm.refl _) rfl).1⟩

/-- Claim C6 counterexample: constructing a `ShuffleBag` from the empty
target set succeeds (the constructor performs no validation and returns a
state), and the failure — Python's `IndexError` from `pop()` on an empty
list, modelled as `none` — happens at draw time, contradicting the claim
that the error is raised at construction and never at draw time. -/
theorem empty_targetset_fails_at_draw_not_construction :
    ShuffleBag.init id [] = { items := [], bag := [] }
    ∧ (ShuffleBag.next id (ShuffleBag.init id [])).1 = none :=
  ⟨rfl, rfl⟩

/-- Claim C6 (amended): constructing a scheduler never raises, for any
target set; drawing fails exactly in the empty-target-set case: a scheduler
whose target set is nonempty never fails at draw time (for shuffles that
permute their input). -/
theorem nonempty_targetset_never_fails_at_draw
    (sh : List String → List String) (s : ShuffleBag)
    (hit : s.items ≠ []) (hsh : ∀ l, (sh l).Perm l) :
    ((ShuffleBag.next sh s).1).isSome :=
  next_isSome sh s hit hsh

/-- Closed witness for the amended C6. -/
theorem nonempty_targetset_never_fails_at_draw_witness :
    ((["A"] : List String) ≠ [])
    ∧ ((ShuffleBag.next id (⟨["A"], []⟩ : ShuffleBag)).1).isSome :=
  ⟨by decide, nonempty_targetset_never_fails_at_draw id ⟨["A"], []⟩
    (by decide) (fun l => List.Perm.refl _)⟩

/-! ## Claim theorems: trial resolution -/

/-- Claim C1: a press decoded during the live prompt whose label equals the
current target creates exactly one Attempt, appended to the ledger, with
`correct = true` and reaction latency `now − t` (nonnegative, `t` being the
prompt-live timestamp); the scheduler is then asked for the next target and
a new waiting period begins.  A press whose label does not match the target
never leaves the live-prompt phase, in any of the three variants (the stop
request reaches the terminal summary, not a new waiting period, so a
correct press is the only press that advances to a new trial).  The
hypotheses `0 < t` and `t ≤ now` hold for `time.perf_counter` readings
taken after the prompt-live transition under a monotonic clock. -/
theorem correct_press_creates_one_attempt_and_advances
    (sh : List String → List String) (d : ℚ) (label : String) (now t : ℚ)
    (s : V2.State) (nxt : String) (bag1 : ShuffleBag)
    (hphase : s.phase = GPhase.prompt)
    (ht : s.prompt_shown_t = some t) (ht0 : 0 < t) (hnow : t ≤ now)
    (hdraw : ShuffleBag.next sh s.bag = (some nxt, bag1)) :
    (label = s.target_btn →
      V2.record_press sh d label now s = some
        { phase := GPhase.delay
          delay_until := now + d
          target_btn := nxt
          prompt_shown_t := none
          attempts := s.attempts ++
            [{ target := s.target_btn
               pressed := some label
               reaction_s := some (now - t)
               correct := true }]
          bag := bag1
          trigger_armed := s.trigger_armed }
      ∧ 0 ≤ now - t)
    ∧ (label ≠ s.target_btn → ∀ s2,
        V2.record_press sh d label now s = some s2 →
          s2.phase = GPhase.prompt
          ∧ s2.attempts.length = s.attempts.length + 1)
    ∧ (∀ (d2 : ℚ) (c : String) (idx : ℕ) (now2 t2 : ℚ)
        (sess : RT.Session) (st : RT.AppState),
        st.phase = RPhase.go → st.go_shown_t = some t2 →
        btn_index_to_face idx = some st.target →
        RT.handleJoyButtonDown d2 c idx now2 sess st =
          ({ sess with trials := sess.trials ++
              [{ target := st.target, reaction_s := now2 - t2 }] },
           { phase := RPhase.ready
             target := c
             delay_until := now2 + d2
             go_shown_t := none }))
    ∧ (∀ (d2 : ℚ) (c : String) (idx : ℕ) (now2 : ℚ) (lbl : String)
        (sess : RT.Session) (st : RT.AppState),
        st.phase = RPhase.go → btn_index_to_face idx = some lbl →
        lbl ≠ st.target →
        RT.handleJoyButtonDown d2 c idx now2 sess st = (sess, st))
    ∧ (∀ (d2 : ℚ) (c : String) (idx : ℕ) (now2 t2 : ℚ) (s3 : V1.State),
        s3.phase = GPhase.prompt → s3.prompt_shown_t = some t2 →
        btn_index_to_face idx = some s3.target_btn →
        V1.handleJoyButtonDown d2 c idx now2 s3 =
          { phase := GPhase.delay
            delay_until := now2 + d2
            target_btn := c
            prompt_shown_t := none
            attempts := s3.attempts ++
              [{ target := s3.target_btn
                 pressed := some s3.target_btn
                 reaction_s := some (now2 - t2)
                 correct := true }] })
    ∧ (∀ (d2 : ℚ) (c : String) (idx : ℕ) (now2 : ℚ) (lbl : String)
        (s3 : V1.State),
        s3.phase = GPhase.prompt → btn_index_to_face idx = some lbl →
        lbl ≠ s3.target_btn →
        (V1.handleJoyButtonDown d2 c idx now2 s3).phase = GPhase.prompt
        ∧ (V1.handleJoyButtonDown d2 c idx now2 s3).attempts.length
            = s3.attempts.length + 1) := by
  refine ⟨?_, ?_, ?_, ?_, ?_, ?_⟩
  · intro hlabel
    subst hlabel
    constructor
    · have htz : t ≠ 0 := ne_of_gt ht0
      simp only [V2.record_press, ht, htz, if_false, if_neg htz]
      rw [if_pos (by simp)]
      simp only [hdraw]
      simp
    · exact sub_nonneg.mpr hnow
  · intro hne s2 h2
    constructor
    · simp only [V2.record_press] at h2
      rw [if_neg (by simp [hne])] at h2
      simp only [Option.some.injEq] at h2
      subst h2
      exact hphase
    · exact (V2.record_press_effect sh d label now s s2 h2).1
  · intro d2 c idx now2 t2 sess st hgo hts hdec
    have h7 : idx ≠ RT.START_BUTTON_INDEX :=
      btn_index_to_face_ne_seven idx st.target hdec
    simp only [RT.handleJoyButtonDown]
    rw [if_neg (by simp [h7])]
    simp only [hdec]
    rw [if_neg (by simp [hgo]), if_pos hgo, if_neg (by simp), hts]
    simp [RT.schedule_ready]
  · intro d2 c idx now2 lbl sess st hgo hdec hne
    have h7 : idx ≠ RT.START_BUTTON_INDEX :=
      btn_index_to_face_ne_seven idx lbl hdec
    simp only [RT.handleJoyButtonDown]
    rw [if_neg (by simp [h7])]
    simp only [hdec]
    rw [if_neg (by simp [hgo]), if_pos hgo, if_pos hne]
  · intro d2 c idx now2 t2 s3 hph hts hdec
    have h7 : idx ≠ 7 :=
      btn_index_to_face_ne_seven idx s3.target_btn hdec
    simp only [V1.handleJoyButtonDown]
    rw [if_neg (by simp [h7]), if_pos hph]
    simp only [hdec, hts]
    rw [if_pos (by simp)]
    simp
  · intro d2 c idx now2 lbl s3 hph hdec hne
    have h7 : idx ≠ 7 := btn_index_to_face_ne_seven idx lbl hdec
    simp only [V1.handleJoyButtonDown]
    rw [if_neg (by simp [h7]), if_pos hph]
    simp only [hdec]
    rw [if_neg (by simp [hne])]
    simp [hph]

/-- Closed witness for C1: a correct `A` press at time 6, prompt live since
time 5, appends one correct attempt with latency 1 and starts a new delay
with the next bag draw `B`. -/
theorem correct_press_creates_one_attempt_and_advances_witness :
    V2.record_press id 1 "A" 6
        { phase := GPhase.prompt
          delay_until := 0
          target_btn := "A"
          prompt_shown_t := some 5
          attempts := []
          bag := { items := ALL_TARGETS, bag := ["B"] }
          trigger_armed := [("LT", true), ("RT", true)] } = some
      { phase := GPhase.delay
        delay_until := 6 + 1
        target_btn := "B"
        prompt_shown_t := none
        attempts := [{ target := "A", pressed := some "A",
                       reaction_s := some (6 - 5), correct := true }]
        bag := { items := ALL_TARGETS, bag := [] }
        trigger_armed := [("LT", true), ("RT", true)] }
    ∧ (0 : ℚ) ≤ 6 - 5 :=
  (correct_press_creates_one_attempt_and_advances id 1 "A" 6 5
    { phase := GPhase.prompt
      delay_until := 0
      target_btn := "A"
      prompt_shown_t := some 5
      attempts := []
      bag := { items := ALL_TARGETS, bag := ["B"] }
      trigger_armed := [("LT", true), ("RT", true)] }
    "B" { items := ALL_TARGETS, bag := [] }
    rfl rfl (by norm_num) (by norm_num) rfl).1 rfl

/-- Claim C3: in the reaction-trainer, a face press decoded during the
waiting (READY) phase creates no trial — the ledger is unchanged — and
increments the false-start counter by exactly one (resetting the delay);
in the two xbox variants no press event is decoded at all while waiting:
the joystick-button handler leaves the state unchanged for every
non-START index (V1) and for every index including START (V2). -/
theorem waiting_press_is_false_start
    (d : ℚ) (c : String) (idx : ℕ) (now : ℚ) (lbl : String)
    (sess : RT.Session) (st : RT.AppState)
    (hphase : st.phase = RPhase.ready)
    (hdec : btn_index_to_face idx = some lbl) :
    RT.handleJoyButtonDown d c idx now sess st =
      ({ sess with false_starts := sess.false_starts + 1 },
       RT.schedule_ready now d st)
    ∧ (RT.handleJoyButtonDown d c idx now sess st).1.trials = sess.trials
    ∧ (RT.handleJoyButtonDown d c idx now sess st).1.false_starts
        = sess.false_starts + 1
    ∧ (∀ (s3 : V1.State) (d2 : ℚ) (c2 : String) (idx2 : ℕ) (now2 : ℚ),
        s3.phase = GPhase.delay → idx2 ≠ 7 →
        V1.handleJoyButtonDown d2 c2 idx2 now2 s3 = s3)
    ∧ (∀ (s4 : V2.State) (sh : List String → List String) (d2 : ℚ)
        (idx2 : ℕ) (now2 : ℚ),
        s4.phase = GPhase.delay →
        V2.handleJoyButtonDown sh d2 idx2 now2 s4 = some s4) := by
  have h7 : idx ≠ RT.START_BUTTON_INDEX :=
    btn_index_to_face_ne_seven idx lbl hdec
  have h1 : RT.handleJoyButtonDown d c idx now sess st =
      ({ sess with false_starts := sess.false_starts + 1 },
       RT.schedule_ready now d st) := by
    simp only [RT.handleJoyButtonDown]
    rw [if_neg (by simp [h7])]
    simp only [hdec]
    rw [if_pos hphase]
  refine ⟨h1, by rw [h1], by rw [h1], ?_, ?_⟩
  · intro s3 d2 c2 idx2 now2 hph h72
    simp only [V1.handleJoyButtonDown]
    rw [if_neg (by simp [h72]), if_neg (by simp [hph])]
  · intro s4 sh d2 idx2 now2 hph
    simp only [V2.handleJoyButtonDown]
    rw [if_neg (by simp [hph])]

/-- Closed witness for C3: pressing face button 0 (`A`) during READY. -/
theorem waiting_press_is_false_start_witness :
    RT.handleJoyButtonDown 1 "A" 0 2 { trials := [], false_starts := 0 }
        { phase := RPhase.ready, target := "A", delay_until := 9,
          go_shown_t := none } =
      ({ trials := [], false_starts := 1 },
       { phase := RPhase.ready, target := "A", delay_until := 2 + 1,
         go_shown_t := none }) :=
  (waiting_press_is_false_start 1 "A" 0 2 "A"
    { trials := [], false_starts := 0 }
    { phase := RPhase.ready, target := "A", delay_until := 9,
      go_shown_t := none } rfl rfl).1

/-! ## Claim theorems: statistics engine -/

/-- Claim C7: the statistics report is a total function of the ledger —
`summaryReport` always returns a value (never raises), its accuracy equals
`correct / total` (in percent) and is `0` rather than a division error when
no attempt exists, and the reaction-latency aggregates carry the explicit
no-data marker `none` exactly when the list of correct timed reactions is
empty — in particular whenever the set of correct attempts is empty. -/
theorem stats_report_never_raises (targets : List String)
    (attempts : List Attempt) :
    Stats.summaryReport targets attempts
      = some (Stats.reportPure targets attempts)
    ∧ (Stats.reportPure targets attempts).acc
        = (if attempts.length = 0 then 0
           else ((attempts.filter fun a => a.correct).length : ℚ)
             / attempts.length * 100)
    ∧ ((Stats.reportPure targets attempts).reaction = none
        ↔ Stats.correct_reactions attempts = [])
    ∧ ((attempts.filter fun a => a.correct) = [] →
        (Stats.reportPure targets attempts).reaction = none)
    ∧ (attempts = [] → (Stats.reportPure targets attempts).acc = 0) := by
  refine ⟨Stats.summaryReport_eq targets attempts, rfl, ?_, ?_, ?_⟩
  · simp only [Stats.reportPure]
    by_cases h : Stats.correct_reactions attempts = [] <;> simp [h]
  · intro h
    have hcr : Stats.correct_reactions attempts = [] := by
      rw [Stats.correct_reactions, List.filterMap_eq_nil_iff]
      intro a ha
      have hna : ¬(a.correct = true) := by
        intro hc
        have : a ∈ attempts.filter fun a => a.correct :=
          List.mem_filter.mpr ⟨ha, by simp [hc]⟩
        rw [h] at this
        cases this
      simp [hna]
    simp [Stats.reportPure, hcr]
  · intro h
    subst h
    rfl

/-- Claim C8 counterexample: the reaction-trainer summary omits the
per-label breakdown entirely — even for a session with a completed trial —
because the breakdown is guarded by `len(TARGET_BUTTONS) > 1` and the
configured target set `["A"]` is a singleton; so the configured label `A`
gets no entry, contradicting "contains an entry for every Label in the
configured TargetSet". -/
theorem per_label_breakdown_omitted :
    "A" ∈ RT.TARGET_BUTTONS
    ∧ RT.breakdownEntries
        { trials := [{ target := "A", reaction_s := 1 }], false_starts := 0 }
      = [] := by
  constructor
  · simp [RT.TARGET_BUTTONS]
  · simp [RT.breakdownEntries, RT.TARGET_BUTTONS]

/-- Claim C8 (amended): in the xbox variants the per-label breakdown lists
every configured label, with the explicit `n=0` marker (`none`) for labels
with no correct attempt; in the reaction-trainer variant the breakdown
section is emitted only when a trial exists and more than one label is
configured, hence never under the configured singleton `["A"]`. -/
theorem per_label_breakdown_amended (targets : List String)
    (attempts : List Attempt) (b : String) (hb : b ∈ targets) :
    ((Stats.reportPure targets attempts).perButton.map Prod.fst = targets)
    ∧ (∃ e, e ∈ (Stats.reportPure targets attempts).perButton ∧ e.1 = b
        ∧ ((∀ a, a ∈ attempts → ¬(a.correct = true ∧ a.target = b)) →
            e.2 = none))
    ∧ (∀ sess : RT.Session, RT.breakdownEntries sess = []) := by
  refine ⟨?_, ?_, ?_⟩
  · simp only [Stats.reportPure, List.map_map]
    exact List.map_id _
  · refine ⟨(b, if Stats.button_rts attempts b = [] then none
      else some ((Stats.button_rts attempts b).length,
        Stats.mean (Stats.button_rts attempts b),
        Stats.median (Stats.button_rts attempts b))), ?_, rfl, ?_⟩
    · simp only [Stats.reportPure]
      exact List.mem_map_of_mem _ hb
    · intro h
      have hrts : Stats.button_rts attempts b = [] := by
        rw [Stats.button_rts, List.filterMap_eq_nil_iff]
        intro a ha
        rw [if_neg]
        intro ⟨hc, htg⟩
        exact h a ha ⟨hc, htg⟩
      simp [hrts]
  · intro sess
    simp [RT.breakdownEntries, RT.TARGET_BUTTONS]

/-- Closed witness for the amended C8: label `LT` of the v2 target set on
an empty ledger. -/
theorem per_label_breakdown_amended_witness :
    "LT" ∈ ALL_TARGETS
    ∧ (Stats.reportPure ALL_TARGETS []).perButton.map Prod.fst = ALL_TARGETS
    ∧ RT.breakdownEntries { trials := [], false_starts := 0 } = [] := by
  refine ⟨by simp [ALL_TARGETS], ?_, ?_⟩
  · exact (per_label_breakdown_amended ALL_TARGETS [] "LT"
      (by simp [ALL_TARGETS])).1
  · exact (per_label_breakdown_amended ALL_TARGETS [] "LT"
      (by simp [ALL_TARGETS])).2.2 _

/-- Closed witness for C7: the empty ledger report exists, shows the
no-data marker and accuracy 0. -/
theorem stats_report_never_raises_witness :
    Stats.summaryReport FACE_TARGETS []
      = some (Stats.reportPure FACE_TARGETS [])
    ∧ (Stats.reportPure FACE_TARGETS []).reaction = none
    ∧ (Stats.reportPure FACE_TARGETS []).acc = 0 :=
  ⟨(stats_report_never_raises FACE_TARGETS []).1,
   (stats_report_never_raises FACE_TARGETS []).2.2.2.1 rfl,
   (stats_report_never_raises FACE_TARGETS []).2.2.2.2 rfl⟩

/-- Claim C9: the confusion summary of every report is `confusionTop`; it
has at most 8 entries, is ordered by non-increasing count, its underlying
tally stores for every `(target, pressed)` pair exactly the number of
incorrect attempts with that pair and a known pressed label, and the
stable sort keeps tied entries in their first-seen tally order. -/
theorem confusion_summary_props (targets : List String)
    (attempts : List Attempt) :
    (Stats.reportPure targets attempts).confusion
      = Stats.confusionTop attempts
    ∧ (Stats.confusionTop attempts).length ≤ 8
    ∧ (Stats.confusionTop attempts).Pairwise (fun x y => y.2 ≤ x.2)
    ∧ (∀ k : String × String,
        Stats.lookupCount (Stats.confusionTally attempts) k
          = Stats.specPairCount k attempts)
    ∧ (∀ x y : (String × String) × ℕ,
        List.Sublist [x, y] (Stats.confusionTally attempts) → x.2 = y.2 →
        List.Sublist [x, y]
          ((Stats.confusionTally attempts).mergeSort Stats.confLe)) := by
  refine ⟨rfl, List.length_take_le 8 _, ?_, ?_, ?_⟩
  · have hs : ((Stats.confusionTally attempts).mergeSort
        Stats.confLe).Pairwise (fun x y => Stats.confLe x y) :=
      List.sorted_mergeSort Stats.confLe_trans Stats.confLe_total _
    have ht : (Stats.confusionTop attempts).Pairwise
        (fun x y => Stats.confLe x y) :=
      hs.sublist (List.take_sublist 8 _)
    exact ht.imp fun h => by simpa [Stats.confLe] using h
  · exact fun k => Stats.lookupCount_confusionTally attempts k
  · intro x y hsub htie
    exact List.pair_sublist_mergeSort Stats.confLe_trans Stats.confLe_total
      (by simp [Stats.confLe, htie.symm.le]) hsub

/-- Closed witness for C9: two tied confusion pairs keep their first-seen
order through the sort. -/
theorem confusion_summary_props_witness :
    List.Sublist [((("A", "B"), 1) : (String × String) × ℕ), (("B", "A"), 1)]
      ((Stats.confusionTally
        [{ target := "A", pressed := some "B", reaction_s := none,
           correct := false },
         { target := "B", pressed := some "A", reaction_s := none,
           correct := false }]).mergeSort Stats.confLe) :=
  (confusion_summary_props []
    [{ target := "A", pressed := some "B", reaction_s := none,
       correct := false },
     { target := "B", pressed := some "A", reaction_s := none,
       correct := false }]).2.2.2.2
    (("A", "B"), 1) (("B", "A"), 1)
    (by rw [show Stats.confusionTally
        [{ target := "A", pressed := some "B", reaction_s := none,
           correct := false },
         { target := "B", pressed := some "A", reaction_s := none,
           correct := false }]
        = [((("A", "B") : String × String), 1), (("B", "A"), 1)] from rfl])
    rfl

/-! ## Claim theorems: trigger decoding and phase gating -/

unseal Rat.add Rat.sub Rat.mul Rat.inv in
/-- Claim C10 counterexample: within the trigger polling pass — entered
while the prompt was live — the correct `LT` pull resolves the trial and
the phase becomes `delay`, yet the `RT` axis of the same pass is still
polled against that waiting-phase state and appends an Attempt: controller
input is not inert outside `PromptLive`. -/
theorem trigger_press_lands_while_waiting :
    V2.pollTriggerAxis id 1 6 4 "LT" 1 6 c10s0 = some c10s1
    ∧ c10s1.phase = GPhase.delay
    ∧ V2.pollTriggerAxis id 1 6 5 "RT" 1 6 c10s1 = some c10s2
    ∧ c10s2.attempts.length = c10s1.attempts.length + 1
    ∧ V2.triggerPass id id 1 1 6 1 1 6 c10s0 = some c10s2 := by
  decide

/-- Claim C10 (amended): discrete button-down events are handled only
while the phase is `prompt`, and the trigger polling pass is entered only
while the phase is `prompt`; outside it — waiting or summary — both leave
the state unchanged (including the START index 7), so a press can land
during waiting only through the in-pass phase change exhibited by the
counterexample. -/
theorem controller_inert_outside_prompt (sh : List String → List String)
    (d : ℚ) (idx : ℕ) (now : ℚ) (s : V2.State)
    (h : s.phase ≠ GPhase.prompt) :
    V2.handleJoyButtonDown sh d idx now s = some s
    ∧ (∀ (shLT shRT : List String → List String) (dLT dRT : ℚ)
        (numAxes : ℕ) (vLT vRT now2 : ℚ),
        V2.triggerPass shLT shRT dLT dRT numAxes vLT vRT now2 s = some s) := by
  constructor
  · simp only [V2.handleJoyButtonDown]
    rw [if_neg h]
  · intro shLT shRT dLT dRT numAxes vLT vRT now2
    simp only [V2.triggerPass]
    rw [if_neg h]

/-- Closed witness for the amended C10: the summary phase ignores a START
press and the polling pass. -/
theorem controller_inert_outside_prompt_witness :
    V2.handleJoyButtonDown id 1 7 9 cSummary = some cSummary
    ∧ V2.triggerPass id id 1 1 6 1 1 9 cSummary = some cSummary :=
  ⟨(controller_inert_outside_prompt id 1 7 9 cSummary (by decide)).1,
   (controller_inert_outside_prompt id 1 7 9 cSummary (by decide)).2
     id id 1 1 6 1 1 9⟩

unseal Rat.add Rat.sub Rat.mul Rat.inv in
/-- Claim C4 counterexample: with the trigger held at value 1 throughout —
never dropping below the release threshold — the `LT` axis fires a press
for the live prompt, and after the trial resolves and the next prompt
becomes live (re-arming the triggers) it fires again: a further press event
occurred for that label although the sampled value never dropped below the
release threshold. -/
theorem trigger_refire_without_release :
    V2.TRIGGER_RELEASE < 1
    ∧ ((V2.pollTriggerAxis id 1 6 4 "LT" 1 6 c4s0).bind
        fun s1 => V2.pollTriggerAxis id 1 6 4 "LT" 1 9
          (V2.delayToPrompt 8 s1)).map
        (fun s2 => s2.attempts.map fun a => a.pressed)
      = some [some "LT", some "LT"] := by
  decide

/-- Claim C4 (amended): within one live-prompt period — a run of polls not
interrupted by a prompt-entry re-arm — the hysteresis holds: the release
threshold is below the press threshold; once disarmed (after a fire), no
further press fires while the sampled values stay at or above the release
threshold; a single sustained crossing above the press threshold fires at
most one press; and each in-range poll of `pollTriggerAxis` appends exactly
one attempt when the fire condition of the automaton holds and none
otherwise.  Across prompt boundaries the re-arm allows a refire without a
release, as the counterexample shows. -/
theorem trigger_hysteresis_within_prompt :
    V2.TRIGGER_RELEASE < V2.TRIGGER_THRESHOLD
    ∧ (∀ vs : List ℚ, (∀ v ∈ vs, ¬ v < V2.TRIGGER_RELEASE) →
        Trigger.fireCount vs false = 0)
    ∧ (∀ (vs : List ℚ) (a : Bool), (∀ v ∈ vs, V2.TRIGGER_THRESHOLD < v) →
        Trigger.fireCount vs a ≤ 1)
    ∧ (∀ (sh : List String → List String) (d : ℚ) (numAxes ai : ℕ)
        (name : String) (v now : ℚ) (s s2 : V2.State),
        ai < numAxes →
        V2.pollTriggerAxis sh d numAxes ai name v now s = some s2 →
        s2.attempts.length = s.attempts.length +
          (if Trigger.fires v (V2.armedOf s name) then 1 else 0)) := by
  refine ⟨trigger_release_lt_threshold, Trigger.fireCount_disarmed,
    Trigger.fireCount_sustained_high, ?_⟩
  intro sh d numAxes ai name v now s s2 hlt h
  have hna : ¬ numAxes ≤ ai := by omega
  simp only [V2.pollTriggerAxis] at h
  rw [if_neg hna] at h
  by_cases hf : V2.TRIGGER_THRESHOLD < v ∧ V2.armedOf s name = true
  · rw [if_pos (by simpa [V2.armedOf] using hf)] at h
    have hfire : Trigger.fires v (V2.armedOf s name) = true := by
      simp [Trigger.fires, hf.1, hf.2]
    rcases hrp : V2.record_press sh d name now
        { s with trigger_armed := V2.setArmed s.trigger_armed name false }
      with _ | s1
    · rw [hrp] at h
      cases h
    · rw [hrp] at h
      simp only [Option.some.injEq] at h
      have heff := V2.record_press_effect sh d name now _ s1 hrp
      rw [hfire, if_pos rfl, ← h]
      by_cases hr : v < V2.TRIGGER_RELEASE
      · rw [if_pos hr]
        simpa using heff.1
      · rw [if_neg hr]
        simpa using heff.1
  · rw [if_neg (by simpa [V2.armedOf] using hf)] at h
    have hfire : Trigger.fires v (V2.armedOf s name) = false := by
      rcases Decidable.not_and_iff_or_not.mp hf with h1 | h1
      · simp [Trigger.fires, h1]
      · rw [Bool.not_eq_true] at h1
        simp [Trigger.fires, h1]
    have h2 : some (if v < V2.TRIGGER_RELEASE then
        { s with trigger_armed := V2.setArmed s.trigger_armed name true }
      else s) = some s2 := h
    injection h2 with h3
    rw [hfire, if_neg (by simp), ← h3]
    by_cases hr : v < V2.TRIGGER_RELEASE
    · rw [if_pos hr]
      simp
    · rw [if_neg hr]
      simp

unseal Rat.add Rat.sub Rat.mul Rat.inv in
/-- Closed witness for the amended C4: three sustained samples above the
press threshold fire at most once from an armed start, and a disarmed
trigger held above the release threshold never fires. -/
theorem trigger_hysteresis_within_prompt_witness :
    Trigger.fireCount [1, 1, 1] true ≤ 1
    ∧ Trigger.fireCount [1, 1] false = 0 :=
  ⟨trigger_hysteresis_within_prompt.2.2.1 [1, 1, 1] true (by decide),
   trigger_hysteresis_within_prompt.2.1 [1, 1] (by decide)⟩

unseal Rat.add Rat.sub Rat.mul Rat.inv in
/-- Claim C5 counterexample: `LT` is disarmed and held from the previous
trial (value 1, never below the release threshold); when the new prompt
becomes live the arming state is reset to armed — and therefore the very
first poll of the new prompt fires a press event immediately, with no
release-then-press cycle: `delayToPrompt` enables (rather than prevents)
the immediate fire. -/
theorem held_trigger_fires_on_new_prompt :
    (V2.delayToPrompt 6 c5s0).trigger_armed = [("LT", true), ("RT", true)]
    ∧ (V2.pollTriggerAxis id 1 6 4 "LT" 1 6 (V2.delayToPrompt 6 c5s0)).map
        (fun s1 => s1.attempts)
      = some [{ target := "A", pressed := some "LT", reaction_s := some 0,
                correct := false }] := by
  decide

/-- Claim C5 (amended): whenever a new prompt becomes live every trigger's
arming state is reset to armed; as a consequence a trigger already held
past the press threshold from the previous trial fires a press event at the
very first poll of the new prompt — one attempt is appended — without any
intervening drop below the release threshold. -/
theorem prompt_entry_rearms_and_held_trigger_fires
    (sh : List String → List String) (d v now : ℚ) (s : V2.State)
    (nxt : String) (bag1 : ShuffleBag)
    (hphase : s.phase = GPhase.delay) (hdl : s.delay_until ≤ now)
    (hv : V2.TRIGGER_THRESHOLD < v)
    (hdraw : ShuffleBag.next sh s.bag = (some nxt, bag1)) :
    (V2.delayToPrompt now s).trigger_armed
      = s.trigger_armed.map (fun e => (e.1, true))
    ∧ ∃ s2, V2.pollTriggerAxis sh d 6 4 "LT" v now
          (V2.delayToPrompt now s) = some s2
        ∧ s2.attempts.length = s.attempts.length + 1 := by
  have hentry : V2.delayToPrompt now s =
      { s with
        phase := GPhase.prompt
        prompt_shown_t := some now
        trigger_armed := s.trigger_armed.map fun e => (e.1, true) } := by
    simp only [V2.delayToPrompt]
    rw [if_pos ⟨hphase, hdl⟩]
  constructor
  · rw [hentry]
  · rw [hentry]
    set s1 : V2.State :=
      { s with
        phase := GPhase.prompt
        prompt_shown_t := some now
        trigger_armed := s.trigger_armed.map fun e => (e.1, true) } with hs1
    have harmed : V2.armedOf s1 "LT" = true := by
      simp only [hs1, V2.armedOf]
      exact V2.lookup_map_true "LT" s.trigger_armed
    have hrp : (V2.record_press sh d "LT" now
        { s1 with trigger_armed := V2.setArmed s1.trigger_armed "LT" false
        }).isSome := by
      by_cases hc : "LT" = s1.target_btn
      · simp only [V2.record_press, hc]
        rw [if_pos (by simp)]
        simp only [hdraw]
        simp
      · simp only [V2.record_press]
        rw [if_neg (by simp [hc])]
        simp
    obtain ⟨s2, hs2⟩ := Option.isSome_iff_exists.mp hrp
    have heff := V2.record_press_effect sh d "LT" now _ s2 hs2
    have hrel : ¬ v < V2.TRIGGER_RELEASE := fun hlt =>
      absurd (lt_trans hlt trigger_release_lt_threshold) (lt_asymm hv)
    refine ⟨s2, ?_, ?_⟩
    · simp only [V2.pollTriggerAxis]
      rw [if_neg (by omega), if_pos ⟨hv, harmed⟩, hs2]
      exact congrArg some (if_neg hrel)
    · simpa using heff.1

unseal Rat.add Rat.sub Rat.mul Rat.inv in
/-- Closed witness for the amended C5. -/
theorem prompt_entry_rearms_and_held_trigger_fires_witness :
    (V2.delayToPrompt 6 c5s0).trigger_armed
      = c5s0.trigger_armed.map (fun e => (e.1, true))
    ∧ ∃ s2, V2.pollTriggerAxis id 1 6 4 "LT" 1 6
          (V2.delayToPrompt 6 c5s0) = some s2
        ∧ s2.attempts.length = c5s0.attempts.length + 1 :=
  prompt_entry_rearms_and_held_trigger_fires id 1 1 6 c5s0 "B"
    { items := ALL_TARGETS, bag := [] }
    rfl (by decide) (by decide) rfl
